import Mathlib

/-!
Verification of the capture/analytics/project backend of the
AI-Personal-Operating-System repository.

Strings are modelled as lists of characters (`List Char`); JavaScript
numbers are modelled as exact rationals (`ℚ`) — at every concrete input
appearing in a theorem below the double-precision computation and the
rational computation agree, since no comparison is within rounding
distance of its threshold.  JavaScript `Math.round` is `round` on `ℚ`
(both round halves towards positive infinity).
-/

namespace AIOS

/-! ### JavaScript string primitives used by the capture service -/

/-- The whitespace characters relevant to `String.prototype.trim` for the
inputs considered here (space, tab, newline, carriage return). -/
def jsWhitespace (c : Char) : Bool :=
  c == ' ' || c == '\t' || c == '\n' || c == '\r'

/-- `String.prototype.trim`: strip whitespace from both ends. -/
def jsTrim (l : List Char) : List Char :=
  ((l.dropWhile jsWhitespace).reverse.dropWhile jsWhitespace).reverse

/-- `String.prototype.toLowerCase`, on the ASCII range (all keyword
comparisons in the source involve ASCII letters only). -/
def lowerChar (c : Char) : Char :=
  if 'A' ≤ c ∧ c ≤ 'Z' then Char.ofNat (c.toNat + 32) else c

def jsLower (l : List Char) : List Char := l.map lowerChar

/-- Whether `w` occurs at the start of `l` (helper for `containsSub`). -/
def beginsWith : List Char → List Char → Bool
  | _, [] => true
  | [], _ :: _ => false
  | b :: l, a :: w => a == b && beginsWith l w

/-- `String.prototype.includes`: `w` occurs as a contiguous substring of
`l`. -/
def containsSub : List Char → List Char → Bool
  | [], w => w.isEmpty
  | b :: l, w => beginsWith (b :: l) w || containsSub l w

theorem beginsWith_iff (l w : List Char) : beginsWith l w = true ↔ w <+: l := by
  induction w generalizing l with
  | nil => simp [beginsWith]
  | cons a w ih =>
    cases l with
    | nil => simp [beginsWith]
    | cons b l =>
      simp only [beginsWith, Bool.and_eq_true, beq_iff_eq, ih]
      constructor
      · rintro ⟨rfl, t, ht⟩
        exact ⟨t, by simp [ht]⟩
      · rintro ⟨t, ht⟩
        simp only [List.cons_append, List.cons.injEq] at ht
        exact ⟨ht.1, t, ht.2⟩

theorem containsSub_iff (l w : List Char) : containsSub l w = true ↔ w <:+: l := by
  induction l with
  | nil => simp [containsSub, List.isEmpty_iff]
  | cons b l ih =>
    simp only [containsSub, Bool.or_eq_true, beginsWith_iff, ih]
    constructor
    · rintro (⟨t, ht⟩ | ⟨s, t, hst⟩)
      · exact ⟨[], t, by simpa using ht⟩
      · exact ⟨b :: s, t, by simp [hst]⟩
    · rintro ⟨s, t, hst⟩
      cases s with
      | nil => exact Or.inl ⟨t, by simpa using hst⟩
      | cons x s =>
        simp only [List.cons_append, List.cons.injEq] at hst
        exact Or.inr ⟨s, t, hst.2⟩

/-- Splitting on the sentence-boundary characters, one separator at a
time.  The source splits on maximal runs of the characters; the two
differ only by extra all-empty fragments, which the subsequent
non-whitespace filter removes in both cases, so every function below uses
only the filtered fragment list. -/
def sentenceBoundary (c : Char) : Bool :=
  c == '.' || c == '!' || c == '?'

def splitOnB : List Char → List (List Char)
  | [] => [[]]
  | c :: cs =>
    match splitOnB cs with
    | [] => [[]]
    | s :: rest =>
      if sentenceBoundary c then [] :: s :: rest else (c :: s) :: rest

/-! ### Heuristic Content Analyzer (capture-service.tsx) -/

inductive Priority
  | high
  | medium
  | low
  deriving DecidableEq, Repr

def priorityStr : Priority → List Char
  | .high => ("high").data
  | .medium => ("medium").data
  | .low => ("low").data

/-- The declared type of a capture. -/
inductive CType
  | email
  | note
  | task
  | idea
  | link
  | file
  | voice
  deriving DecidableEq, Repr

/-- Input to the capture pipeline.  The source also accepts optional
`source`, `metadata` and `priority` fields, none of which is read by the
content-analysis path modelled here. -/
structure CaptureData where
  type : CType
  content : List Char
  deriving Repr

/-- `generateFallbackSummary` from capture-service.tsx: first
non-whitespace fragment of the split on sentence boundaries, trimmed,
with an ellipsis appended when further fragments exist; if no fragment
survives the filter, the first 100 characters plus an ellipsis. -/
def generateFallbackSummary (content : List Char) : List Char :=
  let sentences := (splitOnB content).filter (fun s => (jsTrim s).length > 0)
  match sentences with
  | [] => content.take 100 ++ ("...").data
  | s :: rest => jsTrim s ++ (if rest.isEmpty then [] else ("...").data)

/-- `categorizeContent` from capture-service.tsx. -/
def categorizeContent (content : List Char) (ty : CType) : List Char :=
  let lower := jsLower content
  if ty = CType.email then ("communication").data
  else if ty = CType.task then ("task").data
  else if ty = CType.idea then ("idea").data
  else if containsSub lower ("meeting").data || containsSub lower ("call").data then
    ("meeting").data
  else if containsSub lower ("research").data || containsSub lower ("study").data then
    ("research").data
  else if containsSub lower ("plan").data || containsSub lower ("strategy").data then
    ("planning").data
  else ("general").data

def urgentWords : List String :=
  ["urgent", "asap", "deadline", "critical", "important", "priority"]

def highPriorityWords : List String :=
  ["meeting", "client", "project", "due"]

/-- `determinePriority` from capture-service.tsx: urgent keywords win,
then the secondary tier, else low. -/
def determinePriority (content : List Char) : Priority :=
  let lower := jsLower content
  if urgentWords.any (fun w => containsSub lower w.data) then .high
  else if highPriorityWords.any (fun w => containsSub lower w.data) then .medium
  else .low

/-- `generateSuggestedActions` from capture-service.tsx: type-seeded list
plus keyword-triggered additions, capped at three. -/
def generateSuggestedActions (d : CaptureData) : List (List Char) :=
  let base : List (List Char) :=
    match d.type with
    | .email => [("Reply to email").data, ("Add to calendar").data, ("Create task").data]
    | .idea => [("Create project").data, ("Add to research list").data,
        ("Schedule brainstorm").data]
    | .task => [("Set deadline").data, ("Assign priority").data, ("Add to project").data]
    | _ => []
  let lower := jsLower d.content
  let a1 := if containsSub lower ("meeting").data then
    base ++ [("Schedule meeting").data] else base
  let a2 := if containsSub lower ("research").data then
    a1 ++ [("Create research project").data] else a1
  let a3 := if containsSub lower ("follow up").data then
    a2 ++ [("Set reminder").data] else a2
  a3.take 3

/-- The regex-based entity extractors (`extractPeople`, `extractDates`,
`extractTasks`) enter the model as parameters: the merge policy under
verification is independent of their behaviour, and every theorem below
quantifies over all of them. -/
structure EntityExtractors where
  extractPeople : List Char → List (List Char)
  extractDates : List Char → List (List Char)
  extractTasks : List Char → List (List Char)

structure Entities where
  people : List (List Char)
  dates : List (List Char)
  projects : List (List Char)
  tasks : List (List Char)
  deriving DecidableEq, Repr

structure ProcessedContent where
  summary : List Char
  category : List Char
  priority : List Char
  suggestedActions : List (List Char)
  extractedEntities : Entities
  deriving DecidableEq, Repr

/-- The JSON object parsed out of the Language-Model Gateway reply.
Every field may be absent; string fields may additionally be present but
empty (the JavaScript falsy case relevant to the merge). -/
structure Analysis where
  summary : Option (List Char) := none
  category : Option (List Char) := none
  priority : Option (List Char) := none
  actions : Option (List (List Char)) := none
  people : Option (List (List Char)) := none
  dates : Option (List (List Char)) := none
  projects : Option (List (List Char)) := none
  tasks : Option (List (List Char)) := none
  deriving DecidableEq, Repr

/-- `analyzeWithOpenAI` returns `{}` on any network failure, non-2xx
response, or unparsable reply: the analysis with every field absent. -/
def emptyAnalysis : Analysis := {}

/-- JavaScript `x || y` for a string-typed field: an absent or empty
string falls back. -/
def orStr (v : Option (List Char)) (fb : List Char) : List Char :=
  match v with
  | none => fb
  | some s => if s.isEmpty then fb else s

/-- JavaScript `x || y` for an array-typed field: only an absent value
falls back (a JavaScript array is truthy even when empty). -/
def orList (v : Option (List (List Char))) (fb : List (List Char)) :
    List (List Char) :=
  match v with
  | none => fb
  | some a => a

/-- `processWithAI` from capture-service.tsx, after the gateway reply has
been parsed into `analysis`: field-by-field preference for the gateway
value with heuristic fallback. -/
def processWithAI (E : EntityExtractors) (analysis : Analysis) (d : CaptureData) :
    ProcessedContent :=
  { summary := orStr analysis.summary (generateFallbackSummary d.content)
    category := orStr analysis.category (categorizeContent d.content d.type)
    priority := orStr analysis.priority (priorityStr (determinePriority d.content))
    suggestedActions := orList analysis.actions (generateSuggestedActions d)
    extractedEntities :=
      { people := orList analysis.people (E.extractPeople d.content)
        dates := orList analysis.dates (E.extractDates d.content)
        projects := orList analysis.projects []
        tasks := orList analysis.tasks (E.extractTasks d.content) } }

/-- `getFallbackProcessing` from capture-service.tsx: the whole-object
heuristic result used when the gateway call throws. -/
def getFallbackProcessing (E : EntityExtractors) (d : CaptureData) :
    ProcessedContent :=
  { summary := generateFallbackSummary d.content
    category := categorizeContent d.content d.type
    priority := priorityStr (determinePriority d.content)
    suggestedActions := generateSuggestedActions d
    extractedEntities :=
      { people := E.extractPeople d.content
        dates := E.extractDates d.content
        projects := []
        tasks := E.extractTasks d.content } }

/-! ### Trend classification (analytics-service, `calculateTrend`) -/

inductive Trend
  | up
  | down
  | stable
  deriving DecidableEq, Repr

/-- `calculateTrend` from the analytics service.  `values.slice(-3)` is
`drop (length - 3)` and `values.slice(-6, -3)` is the drop/take below;
both sums are divided by the literal 3 even when the slice holds fewer
than three elements, exactly as in the source. -/
def calculateTrend (values : List ℚ) : Trend :=
  if values.length < 2 then .stable
  else
    let recent := (values.drop (values.length - 3)).sum / 3
    let previous :=
      ((values.drop (values.length - 6)).take
        ((values.length - 3) - (values.length - 6))).sum / 3
    if recent > previous * (11 / 10) then .up
    else if recent < previous * (9 / 10) then .down
    else .stable

/-! ### Analytics Aggregator (analytics-service, `recordActivity`) -/

inductive ActivityType
  | task_complete
  | capture
  | focus_session
  | meeting
  | integration_sync
  deriving DecidableEq, Repr

/-- The metadata object attached to an activity.  Only `duration` is ever
read (via `activity.metadata?.duration || 0`); any other shape of
metadata behaves like one with `duration` absent. -/
structure ActivityMeta where
  duration : Option ℚ := none
  deriving DecidableEq, Repr

structure Activity where
  type : ActivityType
  metadata : Option ActivityMeta := none
  timestamp : Option String := none
  deriving DecidableEq, Repr

/-- `activity.metadata?.duration || 0`: optional chaining plus falsy
default, which never throws. -/
def durationOf (a : Activity) : ℚ :=
  match a.metadata with
  | none => 0
  | some m => m.duration.getD 0

structure ProductivityMetrics where
  tasksCompleted : ℚ := 0
  tasksCreated : ℚ := 0
  focusScore : ℚ := 0
  captureCount : ℚ := 0
  activeProjects : ℚ := 0
  meetingTime : ℚ := 0
  deepWorkTime : ℚ := 0
  deriving DecidableEq, Repr

/-- `calculateFocusScore` from the analytics service. -/
def calculateFocusScore (m : ProductivityMetrics) : ℚ :=
  let totalTime := m.deepWorkTime + m.meetingTime
  if totalTime = 0 then 0
  else
    let fRat := m.deepWorkTime / totalTime
    let tRat := m.tasksCompleted / max m.tasksCreated 1
    ((round ((fRat * (6 / 10) + tRat * (4 / 10)) * 100) : ℤ) : ℚ)

/-- The per-activity increment applied by `updateDailyMetrics` (its
`switch` statement): the focus score is recomputed only on
`focus_session` events, after the deep-work increment. -/
def applyDailyMetrics (m : ProductivityMetrics) (a : Activity) : ProductivityMetrics :=
  match a.type with
  | .task_complete => { m with tasksCompleted := m.tasksCompleted + 1 }
  | .capture => { m with captureCount := m.captureCount + 1 }
  | .focus_session =>
    let m1 := { m with deepWorkTime := m.deepWorkTime + durationOf a }
    { m1 with focusScore := calculateFocusScore m1 }
  | .meeting => { m with meetingTime := m.meetingTime + durationOf a }
  | .integration_sync => m

/-- The per-activity increment applied by `updatePeriodMetric` to the
weekly and monthly buckets.  The source implements only the
`task_complete` and `capture` cases; where the `focus_session` and
`meeting` cases would be it contains only the literal comment
`// ... other cases`, so every other activity type leaves the bucket
unchanged. -/
def applyPeriodMetric (m : ProductivityMetrics) (a : Activity) : ProductivityMetrics :=
  match a.type with
  | .task_complete => { m with tasksCompleted := m.tasksCompleted + 1 }
  | .capture => { m with captureCount := m.captureCount + 1 }
  | _ => m

/-- Association-list get, the model of a key-value read.

Modelled from the spec: `kv_store.tsx` is not under src/; per spec §2 the
Key-Value Store Adapter "persists arbitrary JSON documents under string
keys, supports prefix scans", modelled as an association list with
replace-or-insert writes. -/
def alGet {κ α : Type} [DecidableEq κ] (l : List (κ × α)) (k : κ) : Option α :=
  (l.find? (fun p => decide (p.1 = k))).map Prod.snd

/-- Association-list set (replace-or-insert); see `alGet`. -/
def alSet {κ α : Type} [DecidableEq κ] (l : List (κ × α)) (k : κ) (v : α) :
    List (κ × α) :=
  if (l.find? (fun p => decide (p.1 = k))).isSome then
    l.map (fun p => if p.1 = k then (k, v) else p)
  else (k, v) :: l

/-- Which key-value operations fail: the store adapter is an external
dependency that may throw on any call, modelled by an arbitrary fault
oracle. -/
structure KVFaults where
  getFails : String → Bool
  setFails : String → Bool

def kvGetM {α : Type} (F : KVFaults) (l : List (String × α)) (k : String) :
    Except Unit (Option α) :=
  if F.getFails k then .error () else .ok (alGet l k)

def kvSetM {α : Type} (F : KVFaults) (l : List (String × α)) (k : String) (v : α) :
    Except Unit (List (String × α)) :=
  if F.setFails k then .error () else .ok (alSet l k v)

/-- `patterns[hour]` entry of the hourly-pattern object. -/
structure HourPattern where
  count : ℚ := 0
  types : List (ActivityType × ℚ) := []
  deriving DecidableEq, Repr

/-- The analytics slice of the key-value store. -/
structure AnalyticsStore where
  daily : List (String × ProductivityMetrics) := []
  weekly : List (String × ProductivityMetrics) := []
  monthly : List (String × ProductivityMetrics) := []
  hourly : List (String × List (Nat × HourPattern)) := []

/-- JavaScript `Date` construction and formatting are total: an
unparsable timestamp yields the `Invalid Date` renderings, never an
exception.  The four derivations are therefore modelled as uninterpreted
total functions of the optional timestamp. -/
structure DateFns where
  dayKeyOf : Option String → String
  hourOf : Option String → Nat
  weekKeyOf : Option String → String
  monthKeyOf : Option String → String

/-- `updateDailyMetrics`: read-modify-write of the daily bucket, with its
own try/catch swallowing any store failure. -/
def updateDailyMetricsOp (F : KVFaults) (s : AnalyticsStore) (userId dayKey : String)
    (a : Activity) : AnalyticsStore :=
  let key := "user:" ++ userId ++ ":metrics:" ++ dayKey
  let body : Except Unit AnalyticsStore := do
    let existing ← kvGetM F s.daily key
    let metrics := existing.getD {}
    let d ← kvSetM F s.daily key (applyDailyMetrics metrics a)
    pure { s with daily := d }
  match body with
  | .ok s1 => s1
  | .error _ => s

/-- `updateHourlyPatterns`: bump the per-hour counters, with its own
try/catch swallowing any store failure. -/
def updateHourlyPatternsOp (F : KVFaults) (s : AnalyticsStore) (userId : String)
    (hour : Nat) (a : Activity) : AnalyticsStore :=
  let key := "user:" ++ userId ++ ":patterns:hourly"
  let body : Except Unit AnalyticsStore := do
    let existing ← kvGetM F s.hourly key
    let patterns := existing.getD []
    let hp := (alGet patterns hour).getD {}
    let tyCount := (alGet hp.types a.type).getD 0
    let hp1 : HourPattern :=
      { count := hp.count + 1, types := alSet hp.types a.type (tyCount + 1) }
    let h1 ← kvSetM F s.hourly key (alSet patterns hour hp1)
    pure { s with hourly := h1 }
  match body with
  | .ok s1 => s1
  | .error _ => s

/-- `updatePeriodMetric`: read-modify-write of one weekly or monthly
bucket.  It has no try/catch of its own, so a store failure propagates
to the caller. -/
def updatePeriodMetricOp (F : KVFaults) (l : List (String × ProductivityMetrics))
    (key : String) (a : Activity) : Except Unit (List (String × ProductivityMetrics)) := do
  let existing ← kvGetM F l key
  let metrics := existing.getD {}
  kvSetM F l key (applyPeriodMetric metrics a)

/-- `updatePeriodMetrics`: weekly then monthly update, with a try/catch
around the pair; a failure after the weekly write keeps that write. -/
def updatePeriodMetricsOp (F : KVFaults) (s : AnalyticsStore)
    (userId weekKey monthKey : String) (a : Activity) : AnalyticsStore :=
  let wk := "user:" ++ userId ++ ":metrics:weekly:" ++ weekKey
  let mk := "user:" ++ userId ++ ":metrics:monthly:" ++ monthKey
  match updatePeriodMetricOp F s.weekly wk a with
  | .error _ => s
  | .ok w =>
    let s1 := { s with weekly := w }
    match updatePeriodMetricOp F s1.monthly mk a with
    | .error _ => s1
    | .ok m => { s1 with monthly := m }

/-- The try-block of `recordActivity`: derive the date keys, then run the
three bucket updates in source order. -/
def recordActivityBody (F : KVFaults) (D : DateFns) (s : AnalyticsStore)
    (userId : String) (a : Activity) : Except Unit AnalyticsStore := do
  let dayKey := D.dayKeyOf a.timestamp
  let hour := D.hourOf a.timestamp
  let weekKey := D.weekKeyOf a.timestamp
  let monthKey := D.monthKeyOf a.timestamp
  let s1 := updateDailyMetricsOp F s userId dayKey a
  let s2 := updateHourlyPatternsOp F s1 userId hour a
  let s3 := updatePeriodMetricsOp F s2 userId weekKey monthKey a
  pure s3

/-- `recordActivity`: the body wrapped in the outer catch-and-log, which
swallows any failure instead of propagating it to the caller. -/
def recordActivity (F : KVFaults) (D : DateFns) (s : AnalyticsStore)
    (userId : String) (a : Activity) : Except Unit AnalyticsStore :=
  match recordActivityBody F D s userId a with
  | .ok s1 => .ok s1
  | .error _ => .ok s

/-! ### Project/Task Store (project-service) -/

inductive PStatus
  | active
  | completed
  | paused
  | archived
  deriving DecidableEq, Repr

inductive TStatus
  | pending
  | in_progress
  | completed
  | blocked
  deriving DecidableEq, Repr

/-- A task record.  Timestamps are modelled as naturals (milliseconds);
`due_date` stays an opaque string since no claim compares due dates. -/
structure Task where
  id : String
  projectId : String
  title : String
  description : Option String := none
  status : TStatus
  priority : Priority
  assignee : Option String := none
  due_date : Option String := none
  created : Nat
  updated : Nat
  estimatedHours : Option ℚ := none
  actualHours : ℚ := 0
  dependencies : List String := []
  tags : List String := []
  deriving DecidableEq, Repr

/-- `Partial<Task>`: the update/creation payload; `none` means the field
was not supplied. -/
structure TaskUpdates where
  id : Option String := none
  projectId : Option String := none
  title : Option String := none
  description : Option String := none
  status : Option TStatus := none
  priority : Option Priority := none
  assignee : Option String := none
  due_date : Option String := none
  created : Option Nat := none
  updated : Option Nat := none
  estimatedHours : Option ℚ := none
  actualHours : Option ℚ := none
  dependencies : Option (List String) := none
  tags : Option (List String) := none
  deriving DecidableEq, Repr

/-- The spread `{...task, ...updates, id: taskId, projectId,
updated: now}` of `updateTask`: supplied fields win, then the identity
fields and the `updated` stamp are forced. -/
def applyTaskUpdates (t : Task) (u : TaskUpdates) (taskId projectId : String)
    (now : Nat) : Task :=
  { id := taskId
    projectId := projectId
    title := u.title.getD t.title
    description := (u.description.map some).getD t.description
    status := u.status.getD t.status
    priority := u.priority.getD t.priority
    assignee := (u.assignee.map some).getD t.assignee
    due_date := (u.due_date.map some).getD t.due_date
    created := u.created.getD t.created
    updated := now
    estimatedHours := (u.estimatedHours.map some).getD t.estimatedHours
    actualHours := u.actualHours.getD t.actualHours
    dependencies := u.dependencies.getD t.dependencies
    tags := u.tags.getD t.tags }

/-- A project record; `metadata` is an opaque blob modelled as an
association list. -/
structure Project where
  id : String
  userId : String
  name : String
  description : String := ""
  status : PStatus
  priority : Priority
  progress : ℤ
  tasks : List Task
  team : List String := []
  deadline : Option String := none
  created : Nat
  updated : Nat
  tags : List String := []
  metadata : List (String × String) := []
  deriving DecidableEq, Repr

/-- `Partial<Project>`. -/
structure ProjectUpdates where
  id : Option String := none
  userId : Option String := none
  name : Option String := none
  description : Option String := none
  status : Option PStatus := none
  priority : Option Priority := none
  progress : Option ℤ := none
  tasks : Option (List Task) := none
  team : Option (List String) := none
  deadline : Option String := none
  created : Option Nat := none
  updated : Option Nat := none
  tags : Option (List String) := none
  metadata : Option (List (String × String)) := none
  deriving DecidableEq, Repr

/-- The spread `{...existing, ...updates, id: projectId, userId,
updated: now}` of `updateProject`. -/
def applyProjectUpdates (p : Project) (u : ProjectUpdates) (projectId userId : String)
    (now : Nat) : Project :=
  { id := projectId
    userId := userId
    name := u.name.getD p.name
    description := u.description.getD p.description
    status := u.status.getD p.status
    priority := u.priority.getD p.priority
    progress := u.progress.getD p.progress
    tasks := u.tasks.getD p.tasks
    team := u.team.getD p.team
    deadline := (u.deadline.map some).getD p.deadline
    created := u.created.getD p.created
    updated := now
    tags := u.tags.getD p.tags
    metadata := u.metadata.getD p.metadata }

/-- `calculateProgress` from project-service: 0 for no tasks, else the
rounded completion percentage. -/
def calculateProgress (tasks : List Task) : ℤ :=
  if tasks.length = 0 then 0
  else
    let completedTasks := (tasks.filter (fun t => decide (t.status = TStatus.completed))).length
    round ((completedTasks : ℚ) / (tasks.length : ℚ) * 100)

/-- The project/task slice of the key-value store, together with a trace
of `recordActivity` invocations (the callee itself is modelled in the
analytics section; here only the fact of the call matters). -/
structure Store where
  projects : List Project := []
  tasksKV : List ((String × String) × Task) := []
  activityLog : List (String × Activity) := []
  deriving Repr

/-- Whether a stored project record sits under the key
`user:{userId}:project:{projectId}`: a record's own `id`/`userId` fields
always match its key (every write below maintains this). -/
def projKey (userId projectId : String) (q : Project) : Bool :=
  decide (q.userId = userId ∧ q.id = projectId)

/-- Whether a task record sits at id `taskId` (the `findIndex` predicate
of `updateTask`). -/
def taskKey (taskId : String) (t : Task) : Bool :=
  decide (t.id = taskId)

/-- Key-value read of `user:{userId}:project:{projectId}`.

Modelled from the spec: kv_store.tsx is absent from src/; per spec §2 the
adapter persists documents under string keys, modelled as lookup by the
`(userId, projectId)` key pair. -/
def kvGetProject (s : Store) (userId projectId : String) : Option Project :=
  s.projects.find? (projKey userId projectId)

/-- Key-value write of `user:{userId}:project:{projectId}`
(replace-or-insert); see `kvGetProject`. -/
def kvSetProject (s : Store) (userId projectId : String) (p : Project) : Store :=
  if (s.projects.find? (projKey userId projectId)).isSome then
    { s with projects :=
        s.projects.map (fun q => if projKey userId projectId q then p else q) }
  else { s with projects := p :: s.projects }

/-- Key-value write of the standalone copy `user:{userId}:task:{id}`. -/
def kvSetTask (s : Store) (userId : String) (t : Task) : Store :=
  { s with tasksKV := alSet s.tasksKV (userId, t.id) t }

/-- `getProjectById`: a plain key-value read (its catch returns null,
which the total model needs no branch for). -/
def getProjectById (s : Store) (userId projectId : String) : Option Project :=
  kvGetProject s userId projectId

/-- `getUserProjects`: prefix scan of the user's projects, sorted by
`updated` descending. -/
def getUserProjects (s : Store) (userId : String) : List Project :=
  (s.projects.filter (fun p => decide (p.userId = userId))).mergeSort
    (fun a b => decide (b.updated ≤ a.updated))

/-- An invocation of `analyticsService.recordActivity`, kept as a trace
entry. -/
def recordActivityCall (s : Store) (userId : String) (a : Activity) : Store :=
  { s with activityLog := s.activityLog ++ [(userId, a)] }

/-- JavaScript `x || y` where `x` is an optional string field and the
empty string is falsy. -/
def jsOrStr (v : Option String) (fb : String) : String :=
  match v with
  | none => fb
  | some s => if s.isEmpty then fb else s

/-- `createProject`: build the record with defaults, store it.  The
generated id and the clock are parameters; the `project_analytics`
bookkeeping entry (own try/catch, read by no claim) is omitted. -/
def createProject (s : Store) (now : Nat) (userId projectId : String)
    (d : ProjectUpdates) : Store × Project :=
  let p : Project :=
    { id := projectId
      userId := userId
      name := jsOrStr d.name ("Untitled Project")
      description := d.description.getD ("")
      status := d.status.getD PStatus.active
      priority := d.priority.getD Priority.medium
      progress := 0
      tasks := []
      team := d.team.getD []
      deadline := d.deadline
      created := now
      updated := now
      tags := d.tags.getD []
      metadata := d.metadata.getD [] }
  (kvSetProject s userId projectId p, p)

/-- `createTask`: build the task with defaults, append it to the
project's array, recompute progress, write both copies. -/
def createTask (s : Store) (now : Nat) (userId projectId taskId : String)
    (d : TaskUpdates) : Except String (Store × Task) :=
  match kvGetProject s userId projectId with
  | none => .error ("Project not found")
  | some project =>
    let task : Task :=
      { id := taskId
        projectId := projectId
        title := jsOrStr d.title ("Untitled Task")
        description := d.description
        status := d.status.getD TStatus.pending
        priority := d.priority.getD Priority.medium
        assignee := d.assignee
        due_date := d.due_date
        created := now
        updated := now
        estimatedHours := d.estimatedHours
        actualHours := d.actualHours.getD 0
        dependencies := d.dependencies.getD []
        tags := d.tags.getD [] }
    let newTasks := project.tasks ++ [task]
    let project1 := { project with
      tasks := newTasks
      progress := calculateProgress newTasks
      updated := now }
    let s1 := kvSetProject s userId projectId project1
    let s2 := kvSetTask s1 userId task
    .ok (s2, task)

/-- `updateProject`: shallow merge with forced identity fields, then
progress recompute exactly when the updates carry a `tasks` array (a
supplied empty array is truthy in JavaScript and does trigger the
recompute). -/
def updateProject (s : Store) (now : Nat) (userId projectId : String)
    (u : ProjectUpdates) : Except String (Store × Project) :=
  match kvGetProject s userId projectId with
  | none => .error ("Project not found")
  | some existing =>
    let updated0 := applyProjectUpdates existing u projectId userId now
    let updated1 :=
      match u.tasks with
      | some ts => { updated0 with progress := calculateProgress ts }
      | none => updated0
    .ok (kvSetProject s userId projectId updated1, updated1)

/-- `updateTask`: merge the updates into the found task, write the
project (with recomputed progress) and the standalone copy, then run the
completion check.  The source assigns `project.tasks[taskIndex] =
updatedTask` *before* the check `project.tasks[taskIndex].status !==
'completed'`, so the check reads the status of the merged task, exactly
as modelled here with `newTasks`. -/
def updateTask (s : Store) (now : Nat) (userId projectId taskId : String)
    (u : TaskUpdates) : Except String (Store × Task) :=
  match kvGetProject s userId projectId with
  | none => .error ("Project not found")
  | some project =>
    match project.tasks.findIdx? (taskKey taskId) with
    | none => .error ("Task not found")
    | some taskIndex =>
      match project.tasks.get? taskIndex with
      | none => .error ("Task not found")
      | some oldTask =>
        let updatedTask := applyTaskUpdates oldTask u taskId projectId now
        let newTasks := project.tasks.set taskIndex updatedTask
        let project1 := { project with
          tasks := newTasks
          progress := calculateProgress newTasks
          updated := now }
        let s1 := kvSetProject s userId projectId project1
        let s2 := kvSetTask s1 userId updatedTask
        let s3 :=
          if u.status = some TStatus.completed ∧
              ((newTasks.get? taskIndex).map Task.status) ≠ some TStatus.completed then
            recordActivityCall s2 userId
              { type := ActivityType.task_complete, metadata := some {} }
          else s2
        .ok (s3, updatedTask)

/-- `deleteProject`: archive in place, never remove. -/
def deleteProject (s : Store) (now : Nat) (userId projectId : String) :
    Store × Bool :=
  match kvGetProject s userId projectId with
  | none => (s, false)
  | some project =>
    let p1 := { project with status := PStatus.archived, updated := now }
    (kvSetProject s userId projectId p1, true)

/-! ### Store helper lemmas -/

theorem find?_of_findIdx?_get? {α : Type} {P : α → Bool} {l : List α} {i : Nat} {a : α}
    (h1 : l.findIdx? P = some i) (h2 : l.get? i = some a) :
    l.find? P = some a ∧ P a = true := by
  rw [List.findIdx?_eq_some_iff_getElem] at h1
  obtain ⟨hlen, hp, hmin⟩ := h1
  have ha : l[i] = a := by
    rw [List.get?_eq_getElem?, List.getElem?_eq_getElem hlen] at h2
    exact Option.some.inj h2
  subst ha
  refine ⟨?_, hp⟩
  rw [List.find?_eq_some]
  refine ⟨hp, l.take i, l.drop (i + 1), ?_, ?_⟩
  · rw [← List.drop_eq_getElem_cons hlen, List.take_append_drop]
  · intro b hb
    obtain ⟨j, hj, hjb⟩ := List.mem_take_iff_getElem.mp hb
    have hji : j < i := lt_of_lt_of_le hj (min_le_left _ _)
    subst hjb
    simpa using hmin j hji

theorem find?_map_replace {α : Type} (P : α → Bool) (v : α) (hv : P v = true) :
    ∀ l : List α, (l.find? P).isSome = true →
      (l.map (fun q => if P q then v else q)).find? P = some v := by
  intro l
  induction l with
  | nil => simp
  | cons x xs ih =>
    intro hex
    by_cases hx : P x = true
    · simp only [List.map_cons, if_pos hx]
      exact List.find?_cons_of_pos _ hv
    · simp only [List.map_cons, if_neg hx]
      rw [List.find?_cons_of_neg _ (by simpa using hx)]
      rw [List.find?_cons_of_neg _ (by simpa using hx)] at hex
      exact ih hex

theorem mem_map_replace {α : Type} (P : α → Bool) (v : α) :
    ∀ l : List α, (l.find? P).isSome = true →
      v ∈ l.map (fun q => if P q then v else q) := by
  intro l
  induction l with
  | nil => simp
  | cons x xs ih =>
    intro hex
    by_cases hx : P x = true
    · simp [if_pos hx]
    · simp only [List.map_cons, if_neg hx]
      rw [List.find?_cons_of_neg _ (by simpa using hx)] at hex
      exact List.mem_cons_of_mem _ (ih hex)

theorem projKey_eq {uid pid : String} {q : Project} (h : projKey uid pid q = true) :
    q.userId = uid ∧ q.id = pid := by
  simpa [projKey] using h

theorem taskKey_eq {tid : String} {t : Task} (h : taskKey tid t = true) : t.id = tid := by
  simpa [taskKey] using h

theorem kvGetProject_set (s : Store) (uid pid : String) (p : Project)
    (hu : p.userId = uid) (hi : p.id = pid) :
    kvGetProject (kvSetProject s uid pid p) uid pid = some p := by
  have hp : projKey uid pid p = true := by simp [projKey, hu, hi]
  unfold kvGetProject kvSetProject
  by_cases hex : (s.projects.find? (projKey uid pid)).isSome = true
  · rw [if_pos hex]
    exact find?_map_replace _ p hp s.projects hex
  · rw [if_neg hex]
    exact List.find?_cons_of_pos _ hp

theorem kvSetProject_log (s : Store) (uid pid : String) (p : Project) :
    (kvSetProject s uid pid p).activityLog = s.activityLog := by
  unfold kvSetProject
  split <;> rfl

theorem kvSetTask_projects (s : Store) (uid : String) (t : Task) :
    (kvSetTask s uid t).projects = s.projects := rfl

theorem kvSetTask_log (s : Store) (uid : String) (t : Task) :
    (kvSetTask s uid t).activityLog = s.activityLog := rfl

/-! ### The claims -/

/-- C9: for every fault behaviour of the store, every analytics state,
every user id and every activity — including one with absent or
malformed metadata and an arbitrary timestamp — `recordActivity` returns
normally: all internal failures are caught and swallowed, so it can
never fail the caller's primary operation. -/
theorem recordActivity_never_throws (F : KVFaults) (D : DateFns) (s : AnalyticsStore)
    (userId : String) (a : Activity) :
    (recordActivity F D s userId a).isOk = true := by
  unfold recordActivity
  split <;> rfl

/-- C7: `determinePriority` always yields one of high/medium/low; it is
high exactly when the lowercased content contains an urgent keyword,
medium when no urgent keyword but a secondary keyword occurs, and low
otherwise — the tiers checked in that order, first match winning. -/
theorem determinePriority_tiers (content : List Char) :
    (determinePriority content = Priority.high ∨ determinePriority content = Priority.medium ∨
      determinePriority content = Priority.low) ∧
    ((∃ w ∈ urgentWords, w.data <:+: jsLower content) →
      determinePriority content = Priority.high) ∧
    ((¬ ∃ w ∈ urgentWords, w.data <:+: jsLower content) →
      (∃ w ∈ highPriorityWords, w.data <:+: jsLower content) →
      determinePriority content = Priority.medium) ∧
    ((¬ ∃ w ∈ urgentWords, w.data <:+: jsLower content) →
      (¬ ∃ w ∈ highPriorityWords, w.data <:+: jsLower content) →
      determinePriority content = Priority.low) := by
  have hany : ∀ ws : List String,
      (ws.any (fun w => containsSub (jsLower content) w.data) = true) ↔
        ∃ w ∈ ws, w.data <:+: jsLower content := by
    intro ws
    simp [List.any_eq_true, containsSub_iff]
  by_cases h1 : urgentWords.any (fun w => containsSub (jsLower content) w.data) = true
  · have e : determinePriority content = Priority.high := by
      simp [determinePriority, h1]
    exact ⟨Or.inl e, fun _ => e, fun hn _ => absurd ((hany _).mp h1) hn,
      fun hn _ => absurd ((hany _).mp h1) hn⟩
  · by_cases h2 : highPriorityWords.any (fun w => containsSub (jsLower content) w.data) = true
    · have e : determinePriority content = Priority.medium := by
        simp [determinePriority, h1, h2]
      exact ⟨Or.inr (Or.inl e), fun hu => absurd ((hany _).mpr hu) h1, fun _ _ => e,
        fun _ hn => absurd ((hany _).mp h2) hn⟩
    · have e : determinePriority content = Priority.low := by
        simp [determinePriority, h1, h2]
      exact ⟨Or.inr (Or.inr e), fun hu => absurd ((hany _).mpr hu) h1,
        fun _ hm => absurd ((hany _).mpr hm) h2, fun _ _ => e⟩

/-- C7 witness: the three tiers at concrete contents. -/
theorem determinePriority_tiers_witness :
    determinePriority ("Urgent: ship the build").data = Priority.high ∧
    determinePriority ("meet the client").data = Priority.medium ∧
    determinePriority ("buy milk").data = Priority.low := by
  refine ⟨(determinePriority_tiers _).2.1 ?_, (determinePriority_tiers _).2.2.1 ?_ ?_,
    (determinePriority_tiers _).2.2.2 ?_ ?_⟩
  · exact ⟨"urgent", by simp [urgentWords], by decide⟩
  · decide
  · decide
  · decide
  · decide

/-- C6: when the gateway reply is empty (any network error, non-2xx
response or unparsable reply), `processWithAI` returns exactly the
whole-object heuristic result; and in general each structured field
falls back to the heuristic value for that specific field exactly when
the gateway's value is absent or falsy (string fields: absent or empty;
array fields: absent only, an empty array being truthy). -/
theorem processWithAI_field_fallback (E : EntityExtractors) (d : CaptureData) :
    processWithAI E emptyAnalysis d = getFallbackProcessing E d ∧
    (∀ a : Analysis,
      ((a.summary = none ∨ a.summary = some []) →
        (processWithAI E a d).summary = (getFallbackProcessing E d).summary) ∧
      (∀ v, a.summary = some v → v ≠ [] → (processWithAI E a d).summary = v) ∧
      ((a.category = none ∨ a.category = some []) →
        (processWithAI E a d).category = (getFallbackProcessing E d).category) ∧
      (∀ v, a.category = some v → v ≠ [] → (processWithAI E a d).category = v) ∧
      ((a.priority = none ∨ a.priority = some []) →
        (processWithAI E a d).priority = (getFallbackProcessing E d).priority) ∧
      (∀ v, a.priority = some v → v ≠ [] → (processWithAI E a d).priority = v) ∧
      (a.actions = none → (processWithAI E a d).suggestedActions =
        (getFallbackProcessing E d).suggestedActions) ∧
      (∀ vs, a.actions = some vs → (processWithAI E a d).suggestedActions = vs) ∧
      (a.people = none → (processWithAI E a d).extractedEntities.people =
        (getFallbackProcessing E d).extractedEntities.people) ∧
      (∀ vs, a.people = some vs → (processWithAI E a d).extractedEntities.people = vs) ∧
      (a.dates = none → (processWithAI E a d).extractedEntities.dates =
        (getFallbackProcessing E d).extractedEntities.dates) ∧
      (∀ vs, a.dates = some vs → (processWithAI E a d).extractedEntities.dates = vs) ∧
      (a.projects = none → (processWithAI E a d).extractedEntities.projects = []) ∧
      (∀ vs, a.projects = some vs → (processWithAI E a d).extractedEntities.projects = vs) ∧
      (a.tasks = none → (processWithAI E a d).extractedEntities.tasks =
        (getFallbackProcessing E d).extractedEntities.tasks) ∧
      (∀ vs, a.tasks = some vs → (processWithAI E a d).extractedEntities.tasks = vs)) := by
  refine ⟨rfl, fun a => ?_⟩
  refine ⟨?_, ?_, ?_, ?_, ?_, ?_, ?_, ?_, ?_, ?_, ?_, ?_, ?_, ?_, ?_, ?_⟩
  · rintro (h | h) <;> simp [processWithAI, getFallbackProcessing, orStr, h]
  · rintro v h hne
    cases v with
    | nil => exact absurd rfl hne
    | cons c cs => simp [processWithAI, orStr, h]
  · rintro (h | h) <;> simp [processWithAI, getFallbackProcessing, orStr, h]
  · rintro v h hne
    cases v with
    | nil => exact absurd rfl hne
    | cons c cs => simp [processWithAI, orStr, h]
  · rintro (h | h) <;> simp [processWithAI, getFallbackProcessing, orStr, h]
  · rintro v h hne
    cases v with
    | nil => exact absurd rfl hne
    | cons c cs => simp [processWithAI, orStr, h]
  · intro h; simp [processWithAI, getFallbackProcessing, orList, h]
  · intro vs h; simp [processWithAI, orList, h]
  · intro h; simp [processWithAI, getFallbackProcessing, orList, h]
  · intro vs h; simp [processWithAI, orList, h]
  · intro h; simp [processWithAI, getFallbackProcessing, orList, h]
  · intro vs h; simp [processWithAI, orList, h]
  · intro h; simp [processWithAI, orList, h]
  · intro vs h; simp [processWithAI, orList, h]
  · intro h; simp [processWithAI, getFallbackProcessing, orList, h]
  · intro vs h; simp [processWithAI, orList, h]

/-- Extractors returning nothing, a concrete instance for witnesses. -/
def noExtractors : EntityExtractors :=
  { extractPeople := fun _ => [], extractDates := fun _ => [],
    extractTasks := fun _ => [] }

/-- C6 witness: the whole-object fallback and a field-level preference
at concrete inputs. -/
theorem processWithAI_field_fallback_witness :
    processWithAI noExtractors emptyAnalysis { type := CType.note, content := ("hi").data } =
      getFallbackProcessing noExtractors { type := CType.note, content := ("hi").data } ∧
    (processWithAI noExtractors { summary := some (("ok").data) }
      { type := CType.note, content := ("hi").data }).summary = ("ok").data := by
  constructor
  · exact (processWithAI_field_fallback noExtractors _).1
  · exact ((processWithAI_field_fallback noExtractors
      { type := CType.note, content := ("hi").data }).2
      { summary := some (("ok").data) }).2.1 (("ok").data) rfl (by decide)

/-- A fault-free store and a fixed clock, concrete instances for
witnesses. -/
def noFaults : KVFaults :=
  { getFails := fun _ => false, setFails := fun _ => false }

def fixedDates : DateFns :=
  { dayKeyOf := fun _ => "day", hourOf := fun _ => 0,
    weekKeyOf := fun _ => "week", monthKeyOf := fun _ => "month" }

/-- C9 witness: a focus session with absent metadata and a garbage
timestamp still returns normally. -/
theorem recordActivity_never_throws_witness :
    (recordActivity noFaults fixedDates {} ("u1")
      { type := ActivityType.focus_session, metadata := none,
        timestamp := some ("not a timestamp") }).isOk = true :=
  recordActivity_never_throws noFaults fixedDates {} ("u1")
    { type := ActivityType.focus_session, metadata := none,
      timestamp := some ("not a timestamp") }

/-- The failing input of C4: a focus session of duration 30. -/
def focusThirty : Activity :=
  { type := ActivityType.focus_session, metadata := some { duration := some 30 } }

/-- A meeting of duration 30, the other activity type dropped by the
period rollups. -/
def meetingThirty : Activity :=
  { type := ActivityType.meeting, metadata := some { duration := some 30 } }

/-- C4: the daily increment and the weekly/monthly increment agree on
`task_complete` and `capture` but NOT on `focus_session` and `meeting`:
the daily bucket accumulates the duration (and recomputes the focus
score) while `updatePeriodMetric` leaves the weekly/monthly buckets
untouched — its switch has only a `// ... other cases` comment there,
contradicting its own `(same logic as daily)` comment. -/
theorem updatePeriodMetric_drops_durations :
    (applyDailyMetrics {} focusThirty).deepWorkTime = 30 ∧
    (applyDailyMetrics {} focusThirty).focusScore = 60 ∧
    applyPeriodMetric {} focusThirty = {} ∧
    (applyDailyMetrics {} meetingThirty).meetingTime = 30 ∧
    applyPeriodMetric {} meetingThirty = {} ∧
    (∀ (m : ProductivityMetrics) (a : Activity),
      applyPeriodMetric m { a with type := ActivityType.task_complete } =
        applyDailyMetrics m { a with type := ActivityType.task_complete }) ∧
    (∀ (m : ProductivityMetrics) (a : Activity),
      applyPeriodMetric m { a with type := ActivityType.capture } =
        applyDailyMetrics m { a with type := ActivityType.capture }) ∧
    (∀ (m : ProductivityMetrics) (a : Activity),
      a.type = ActivityType.focus_session ∨ a.type = ActivityType.meeting →
      applyPeriodMetric m a = m) := by
  refine ⟨?_, ?_, rfl, ?_, rfl, fun m a => rfl, fun m a => rfl, ?_⟩
  · norm_num [applyDailyMetrics, focusThirty, durationOf]
  · norm_num [applyDailyMetrics, focusThirty, durationOf, calculateFocusScore, round_eq]
  · norm_num [applyDailyMetrics, meetingThirty, durationOf]
  · rintro m a (h | h) <;> simp [applyPeriodMetric, h]

/-- C4 witness: the dead branch of `updatePeriodMetric` at the concrete
failing input. -/
theorem updatePeriodMetric_drops_durations_witness :
    applyPeriodMetric {} focusThirty = {} := by
  exact updatePeriodMetric_drops_durations.2.2.2.2.2.2.2 {} focusThirty (Or.inl rfl)

/-- Closed form of the trend of a constant sequence of length at least
two: both window sums divide by the literal 3, and the windows hold
`min 3 n` and `min 3 (n - 3)` elements respectively. -/
theorem calculateTrend_replicate (c : ℚ) (n : ℕ) (hn : 2 ≤ n) :
    calculateTrend (List.replicate n c) =
      (if ((min 3 n : ℕ) : ℚ) * c / 3 > ((min 3 (n - 3) : ℕ) : ℚ) * c / 3 * (11 / 10) then
        Trend.up
      else if ((min 3 n : ℕ) : ℚ) * c / 3 < ((min 3 (n - 3) : ℕ) : ℚ) * c / 3 * (9 / 10) then
        Trend.down
      else Trend.stable) := by
  have hlen : (List.replicate n c).length = n := List.length_replicate n c
  unfold calculateTrend
  rw [hlen, if_neg (by omega : ¬ n < 2)]
  rw [List.drop_replicate, List.drop_replicate, List.take_replicate,
    List.sum_replicate, List.sum_replicate, nsmul_eq_mul, nsmul_eq_mul]
  have e1 : n - (n - 3) = min 3 n := by omega
  have e2 : min (n - 3 - (n - 6)) (n - (n - 6)) = min 3 (n - 3) := by omega
  rw [e1, e2]

/-- C3 counterexample: the spec's down-example
`[20,20,20,10,10,10,10,10,10]` (oldest to newest) classifies as stable,
not down — its previous-3 window `slice(-6,-3)` is `[10,10,10]`, not
`[20,20,20]`; and the constant sequence `[5,5]` classifies as up, not
stable — its previous-3 window is empty and sums to 0. -/
theorem calculateTrend_claim_refuted :
    calculateTrend [20, 20, 20, 10, 10, 10, 10, 10, 10] = Trend.stable ∧
    calculateTrend [20, 20, 20, 10, 10, 10, 10, 10, 10] ≠ Trend.down ∧
    calculateTrend [5, 5] = Trend.up ∧
    calculateTrend [5, 5] ≠ Trend.stable := by
  have h1 : calculateTrend [20, 20, 20, 10, 10, 10, 10, 10, 10] = Trend.stable := by
    norm_num [calculateTrend]
  have h2 : calculateTrend [5, 5] = Trend.up := by
    norm_num [calculateTrend]
  refine ⟨h1, ?_, h2, ?_⟩
  · rw [h1]
    decide
  · rw [h2]
    decide

/-- C3 amended: fewer than 2 points give stable and the up-example
classifies as up, as claimed; but the down-example classifies as stable
(its previous-3 window is `[10,10,10]`), and a constant sequence of a
non-negative value is stable only when it has at least 6 points (or
value 0, or fewer than 2 points) — positive constants of length 2 to 5
classify as up because the truncated previous window sums to 0. -/
theorem calculateTrend_amended :
    calculateTrend [10, 10, 10, 10, 10, 10, 20, 20, 20] = Trend.up ∧
    calculateTrend [20, 20, 20, 10, 10, 10, 10, 10, 10] = Trend.stable ∧
    (∀ values : List ℚ, values.length < 2 → calculateTrend values = Trend.stable) ∧
    (∀ (c : ℚ) (n : ℕ), 0 ≤ c →
      calculateTrend (List.replicate n c) =
        if 2 ≤ n ∧ n ≤ 5 ∧ 0 < c then Trend.up else Trend.stable) := by
  refine ⟨by norm_num [calculateTrend], by norm_num [calculateTrend], ?_, ?_⟩
  · intro values h
    simp [calculateTrend, h]
  · intro c n hc
    rcases Nat.lt_or_ge n 2 with hn | hn
    · rw [if_neg (by omega : ¬ (2 ≤ n ∧ n ≤ 5 ∧ 0 < c))]
      simp [calculateTrend, hn]
    · rw [calculateTrend_replicate c n hn]
      rcases hc.lt_or_eq with hcp | hc0
      · rcases Nat.lt_or_ge n 6 with h6 | h6
        · rw [if_pos (show 2 ≤ n ∧ n ≤ 5 ∧ 0 < c from ⟨hn, by omega, hcp⟩)]
          interval_cases n <;>
            (split_ifs with hA hB
             · rfl
             all_goals
               (exfalso
                apply hA
                norm_num
                linarith))
        · rw [if_neg (by omega : ¬ (2 ≤ n ∧ n ≤ 5 ∧ 0 < c))]
          have e3 : min 3 n = 3 := by omega
          have e4 : min 3 (n - 3) = 3 := by omega
          rw [e3, e4]
          rw [if_neg (by push_cast; linarith), if_neg (by push_cast; linarith)]
      · rw [← hc0]
        rw [if_neg (by simp), if_neg (by norm_num), if_neg (by norm_num)]

/-- C3 witness: a positive constant sequence of length 7 is stable, and
a single point is stable. -/
theorem calculateTrend_amended_witness :
    calculateTrend (List.replicate 7 (1 : ℚ)) = Trend.stable ∧
    calculateTrend [(3 : ℚ)] = Trend.stable := by
  constructor
  · have h := calculateTrend_amended.2.2.2 1 7 (by norm_num)
    simpa using h
  · exact calculateTrend_amended.2.2.1 [(3 : ℚ)] (by simp)

/-- A list without sentence-boundary characters splits into itself. -/
theorem splitOnB_no_boundary (l : List Char) (h : ∀ c ∈ l, sentenceBoundary c = false) :
    splitOnB l = [l] := by
  induction l with
  | nil => rfl
  | cons c cs ih =>
    have hc := h c (List.mem_cons_self c cs)
    have ih2 := ih (fun x hx => h x (List.mem_cons_of_mem c hx))
    simp [splitOnB, ih2, hc]

/-- A list containing a non-whitespace character does not trim to
nothing. -/
theorem jsTrim_ne_nil (l : List Char) (h : ∃ c ∈ l, jsWhitespace c = false) :
    jsTrim l ≠ [] := by
  intro hnil
  rcases h with ⟨c, hcl, hcw⟩
  have h1 : (l.dropWhile jsWhitespace).reverse.dropWhile jsWhitespace = [] := by
    simpa [jsTrim, List.reverse_eq_nil_iff] using hnil
  have h2 : ∀ x ∈ (l.dropWhile jsWhitespace).reverse, jsWhitespace x = true :=
    List.dropWhile_eq_nil_iff.mp h1
  have h3 : ∀ x ∈ l.dropWhile jsWhitespace, jsWhitespace x = true := by
    intro x hx
    exact h2 x (List.mem_reverse.mpr hx)
  have h4 : c ∈ l.takeWhile jsWhitespace ++ l.dropWhile jsWhitespace := by
    rw [List.takeWhile_append_dropWhile]
    exact hcl
  rcases List.mem_append.mp h4 with h5 | h5
  · have := List.mem_takeWhile_imp h5
    simp [hcw] at this
  · have := h3 c h5
    simp [hcw] at this

/-- A list of non-whitespace characters trims to itself. -/
theorem jsTrim_no_ws (l : List Char) (h : ∀ c ∈ l, jsWhitespace c = false) :
    jsTrim l = l := by
  have d1 : l.dropWhile jsWhitespace = l := by
    cases l with
    | nil => rfl
    | cons c cs =>
      rw [List.dropWhile_cons, if_neg (by simp [h c (List.mem_cons_self c cs)])]
  have d2 : l.reverse.dropWhile jsWhitespace = l.reverse := by
    cases hr : l.reverse with
    | nil => rfl
    | cons c cs =>
      have hcmem : c ∈ l := by
        rw [← List.mem_reverse, hr]
        exact List.mem_cons_self c cs
      rw [List.dropWhile_cons, if_neg (by simp [h c hcmem])]
  rw [jsTrim, d1, d2, List.reverse_reverse]

/-- On boundary-free content with some non-whitespace character, the
fallback summary is the whole content, trimmed. -/
theorem generateFallbackSummary_no_boundary (content : List Char)
    (hnb : ∀ c ∈ content, sentenceBoundary c = false)
    (hnw : ∃ c ∈ content, jsWhitespace c = false) :
    generateFallbackSummary content = jsTrim content := by
  rw [generateFallbackSummary, splitOnB_no_boundary _ hnb]
  rw [List.filter_cons_of_pos (by simpa [List.length_pos] using jsTrim_ne_nil _ hnw),
    List.filter_nil]
  simp

/-- C2 counterexample: 200 letters with no sentence boundary come back
whole — the summary is the entire 200-character content, not the first
100 characters plus an ellipsis, and far beyond the claimed
~103-character bound. -/
theorem summary_bound_refuted :
    generateFallbackSummary (List.replicate 200 'a') = List.replicate 200 'a' ∧
    (List.replicate 200 'a').length = 200 ∧
    generateFallbackSummary (List.replicate 200 'a') ≠
      List.replicate 100 'a' ++ ("...").data := by
  have hnb : ∀ c ∈ List.replicate 200 'a', sentenceBoundary c = false := by
    intro c hc
    rw [List.eq_of_mem_replicate hc]
    rfl
  have hnw : ∃ c ∈ List.replicate 200 'a', jsWhitespace c = false :=
    ⟨'a', List.mem_replicate.mpr ⟨by norm_num, rfl⟩, rfl⟩
  have hfull : generateFallbackSummary (List.replicate 200 'a') = List.replicate 200 'a' := by
    rw [generateFallbackSummary_no_boundary _ hnb hnw]
    exact jsTrim_no_ws _ (fun c hc => by rw [List.eq_of_mem_replicate hc]; rfl)
  refine ⟨hfull, by rw [List.length_replicate], ?_⟩
  intro h
  rw [hfull] at h
  have hlen := congrArg List.length h
  have hdots : (("...").data).length = 3 := rfl
  rw [List.length_replicate, List.length_append, List.length_replicate, hdots] at hlen
  omega

/-- C2 amended: for non-empty content the fallback summary is always
non-empty, but it is bounded neither by 103 characters nor by the first
sentence length: content with no sentence-boundary character (and some
non-whitespace) is returned whole (trimmed); the 100-character
truncation branch fires only when no fragment of the split contains
non-whitespace (content made of boundary characters and whitespace
only); otherwise the summary is the first such fragment, trimmed, with
an ellipsis appended exactly when further non-whitespace fragments
exist. -/
theorem generateFallbackSummary_amended (content : List Char) (_hne : content ≠ []) :
    generateFallbackSummary content ≠ [] ∧
    ((∀ c ∈ content, sentenceBoundary c = false) →
      (∃ c ∈ content, jsWhitespace c = false) →
      generateFallbackSummary content = jsTrim content) := by
  constructor
  · rw [generateFallbackSummary]
    cases hs : (splitOnB content).filter (fun s => decide ((jsTrim s).length > 0)) with
    | nil => simp
    | cons s rest =>
      have hmem : s ∈ (splitOnB content).filter (fun s => decide ((jsTrim s).length > 0)) := by
        rw [hs]
        exact List.mem_cons_self s rest
      have hp : (jsTrim s).length > 0 := by
        simpa using (List.mem_filter.mp hmem).2
      intro hcontra
      rcases List.append_eq_nil.mp hcontra with ⟨h1, _⟩
      rw [h1] at hp
      simp at hp
  · exact generateFallbackSummary_no_boundary content

/-- C2 witness: a concrete boundary-free content. -/
theorem generateFallbackSummary_amended_witness :
    generateFallbackSummary ("hello world").data ≠ [] ∧
    generateFallbackSummary ("hello world").data = jsTrim ("hello world").data := by
  have h := generateFallbackSummary_amended ("hello world").data (by decide)
  exact ⟨h.1, h.2 (by decide) (by decide)⟩

/-- The completion check of `updateTask` reads the task array after the
in-place assignment, so it can never hold: when the update sets status
to completed, the task it inspects already has status completed. -/
theorem completion_check_false (u : TaskUpdates) (l : List Task) (i : Nat)
    (tid pid : String) (now : Nat) (t : Task) (hlt : i < l.length) :
    ¬ (u.status = some TStatus.completed ∧
      (((l.set i (applyTaskUpdates t u tid pid now)).get? i).map Task.status) ≠
        some TStatus.completed) := by
  rintro ⟨hus, hne⟩
  apply hne
  rw [List.get?_eq_getElem?, List.getElem?_set_self']
  simp [hlt, applyTaskUpdates, hus]

/-- A pending one-task project owned by user u1. -/
def sampleTask : Task :=
  { id := "t1", projectId := "p1", title := "write report", status := TStatus.pending,
    priority := Priority.medium, created := 1000, updated := 1000 }

def sampleProject : Project :=
  { id := "p1", userId := "u1", name := "AIOS", status := PStatus.active,
    priority := Priority.high, progress := 0, tasks := [sampleTask],
    created := 1000, updated := 1000 }

def sampleStore : Store := { projects := [sampleProject] }

/-- The update `{status: "completed"}` of the C1 scenario. -/
def completeUpdates : TaskUpdates := { status := some TStatus.completed }

/-- The store and task produced by completing t1. -/
def sampleResult : Store × Task :=
  ((updateTask sampleStore 2000 ("u1") ("p1") ("t1") completeUpdates).toOption).getD
    (sampleStore, sampleTask)

/-- C1 (code bug): `updateTask` NEVER records a `task_complete` activity
— the check `project.tasks[taskIndex].status !== 'completed'` runs after
`project.tasks[taskIndex] = updatedTask`, so it inspects the merged
task, which already has status completed whenever the update asked for
it.  In particular completing the previously-pending t1 succeeds, the
stored task is completed, yet the activity trace stays empty, where the
claim requires exactly one `task_complete` record. -/
theorem updateTask_completion_never_recorded :
    (∀ (s : Store) (now : Nat) (userId projectId taskId : String) (u : TaskUpdates)
      (s1 : Store) (t1 : Task),
      updateTask s now userId projectId taskId u = Except.ok (s1, t1) →
      s1.activityLog = s.activityLog) ∧
    sampleTask.status = TStatus.pending ∧
    updateTask sampleStore 2000 ("u1") ("p1") ("t1") completeUpdates =
      Except.ok sampleResult ∧
    sampleResult.2.status = TStatus.completed ∧
    sampleResult.1.activityLog = [] := by
  refine ⟨?_, rfl, rfl, rfl, rfl⟩
  intro s now userId projectId taskId u s1 t1 h
  rw [updateTask] at h
  cases hP : kvGetProject s userId projectId with
  | none =>
    rw [hP] at h
    exact Except.noConfusion h
  | some project =>
    simp only [hP] at h
    cases hI : project.tasks.findIdx? (taskKey taskId) with
    | none =>
      rw [hI] at h
      exact Except.noConfusion h
    | some i =>
      simp only [hI] at h
      cases hG : project.tasks.get? i with
      | none =>
        rw [hG] at h
        exact Except.noConfusion h
      | some oldTask =>
        simp only [hG] at h
        have hlt : i < project.tasks.length := (List.get?_eq_some.mp hG).choose
        rw [if_neg (completion_check_false u project.tasks i taskId projectId now
          oldTask hlt)] at h
        have hpair := Except.ok.inj h
        have hs1 : s1 = kvSetTask (kvSetProject s userId projectId
            { project with
              tasks := project.tasks.set i (applyTaskUpdates oldTask u taskId projectId now)
              progress := calculateProgress
                (project.tasks.set i (applyTaskUpdates oldTask u taskId projectId now))
              updated := now }) userId
            (applyTaskUpdates oldTask u taskId projectId now) :=
          (congrArg Prod.fst hpair).symm
        rw [hs1, kvSetTask_log, kvSetProject_log]

/-- C1 witness: the general no-record fact applied at the concrete
completion scenario. -/
theorem updateTask_completion_never_recorded_witness :
    sampleResult.1.activityLog = sampleStore.activityLog :=
  updateTask_completion_never_recorded.1 sampleStore 2000 ("u1") ("p1") ("t1")
    completeUpdates sampleResult.1 sampleResult.2 rfl

/-- C8: deleting an existing project never removes the record: the call
reports true, the stored record afterwards is the same project with
status archived and a fresh `updated` stamp (every other field intact),
it still round-trips through the by-id lookup, and it is still returned
by the user's project listing. -/
theorem deleteProject_soft_delete (s : Store) (now : Nat) (userId projectId : String)
    (p : Project) (h : kvGetProject s userId projectId = some p) :
    (deleteProject s now userId projectId).2 = true ∧
    getProjectById (deleteProject s now userId projectId).1 userId projectId =
      some { p with status := PStatus.archived, updated := now } ∧
    { p with status := PStatus.archived, updated := now } ∈
      getUserProjects (deleteProject s now userId projectId).1 userId := by
  have hk : p.userId = userId ∧ p.id = projectId := projKey_eq (List.find?_some h)
  have hfst : (deleteProject s now userId projectId).1 =
      kvSetProject s userId projectId
        { p with status := PStatus.archived, updated := now } := by
    simp only [deleteProject, h]
  have hsnd : (deleteProject s now userId projectId).2 = true := by
    simp only [deleteProject, h]
  have hex : (s.projects.find? (projKey userId projectId)).isSome = true := by
    rw [show s.projects.find? (projKey userId projectId) = some p from h]
    rfl
  refine ⟨hsnd, ?_, ?_⟩
  · rw [hfst]
    exact kvGetProject_set s userId projectId _ hk.1 hk.2
  · rw [hfst]
    unfold getUserProjects
    rw [List.mem_mergeSort]
    apply List.mem_filter.mpr
    constructor
    · unfold kvSetProject
      rw [if_pos hex]
      exact mem_map_replace _ _ s.projects hex
    · simp [hk.1]

/-- C8 witness: archiving the sample project. -/
theorem deleteProject_soft_delete_witness :
    (deleteProject sampleStore 3000 ("u1") ("p1")).2 = true ∧
    getProjectById (deleteProject sampleStore 3000 ("u1") ("p1")).1 ("u1") ("p1") =
      some { sampleProject with status := PStatus.archived, updated := 3000 } ∧
    { sampleProject with status := PStatus.archived, updated := 3000 } ∈
      getUserProjects (deleteProject sampleStore 3000 ("u1") ("p1")).1 ("u1") :=
  deleteProject_soft_delete sampleStore 3000 ("u1") ("p1") sampleProject rfl

/-- A lone completed task and a project holding it. -/
def doneTask : Task :=
  { id := "t9", projectId := "p9", title := "done", status := TStatus.completed,
    priority := Priority.medium, created := 1000, updated := 1000 }

def projDone : Project :=
  { id := "p9", userId := "u1", name := "P", status := PStatus.active,
    priority := Priority.medium, progress := 100, tasks := [doneTask],
    created := 1000, updated := 1000 }

def storeDone : Store := { projects := [projDone] }

theorem calculateProgress_doneTask : calculateProgress [doneTask] = 100 := by
  have hf : [doneTask].filter (fun t => decide (t.status = TStatus.completed)) = [doneTask] := by
    rfl
  rw [calculateProgress, if_neg (by simp), hf]
  norm_num [round_eq]

/-- The result of overriding `progress` directly, without touching the
task array. -/
def overridePair : Store × Project :=
  ((updateProject storeDone 2000 ("u1") ("p9") { progress := some 7 }).toOption).getD
    ({}, projDone)

/-- C5 counterexample: an `updateProject` whose updates carry an explicit
`progress: 7` and no `tasks` stores the project with progress 7, while
its unchanged one-task array (one completed task of one) demands
round(100·1/1) = 100: the invariant does not hold after every
`updateProject`. -/
theorem progress_invariant_refuted :
    updateProject storeDone 2000 ("u1") ("p9") { progress := some 7 } =
      Except.ok overridePair ∧
    kvGetProject overridePair.1 ("u1") ("p9") = some overridePair.2 ∧
    overridePair.2.tasks = [doneTask] ∧
    overridePair.2.progress = 7 ∧
    calculateProgress [doneTask] = 100 := by
  exact ⟨rfl, rfl, rfl, rfl, calculateProgress_doneTask⟩

/-- C5 amended: the stored progress equals
`calculateProgress` of the stored task array after `createProject`,
`createTask` and `updateTask` always, and after `updateProject` whenever
the updates carry a task array (even an empty one, and even together
with a conflicting explicit progress); an `updateProject` without a task
array leaves progress at its previous value or at whatever the caller
explicitly supplied, so only those calls can break the invariant. -/
theorem progress_invariant_amended :
    (∀ (s : Store) (now : Nat) (userId projectId : String) (d : ProjectUpdates),
      ((createProject s now userId projectId d).2).progress =
        calculateProgress ((createProject s now userId projectId d).2).tasks ∧
      kvGetProject (createProject s now userId projectId d).1 userId projectId =
        some (createProject s now userId projectId d).2) ∧
    (∀ (s : Store) (now : Nat) (userId projectId taskId : String) (d : TaskUpdates)
      (s1 : Store) (t1 : Task),
      createTask s now userId projectId taskId d = Except.ok (s1, t1) →
      ∃ p1, kvGetProject s1 userId projectId = some p1 ∧
        p1.progress = calculateProgress p1.tasks) ∧
    (∀ (s : Store) (now : Nat) (userId projectId taskId : String) (u : TaskUpdates)
      (s1 : Store) (t1 : Task),
      updateTask s now userId projectId taskId u = Except.ok (s1, t1) →
      ∃ p1, kvGetProject s1 userId projectId = some p1 ∧
        p1.progress = calculateProgress p1.tasks) ∧
    (∀ (s : Store) (now : Nat) (userId projectId : String) (u : ProjectUpdates)
      (s1 : Store) (p1 : Project) (ts : List Task), u.tasks = some ts →
      updateProject s now userId projectId u = Except.ok (s1, p1) →
      p1.progress = calculateProgress p1.tasks ∧
      kvGetProject s1 userId projectId = some p1) := by
  refine ⟨?_, ?_, ?_, ?_⟩
  · intro s now userId projectId d
    constructor
    · rfl
    · exact kvGetProject_set s userId projectId _ rfl rfl
  · intro s now userId projectId taskId d s1 t1 h
    rw [createTask] at h
    cases hP : kvGetProject s userId projectId with
    | none =>
      rw [hP] at h
      exact Except.noConfusion h
    | some project =>
      simp only [hP] at h
      have hk := projKey_eq (List.find?_some hP)
      injection h with h2
      injection h2 with hA hB
      subst hA
      subst hB
      exact ⟨_, kvGetProject_set s userId projectId _ hk.1 hk.2, rfl⟩
  · intro s now userId projectId taskId u s1 t1 h
    rw [updateTask] at h
    cases hP : kvGetProject s userId projectId with
    | none =>
      rw [hP] at h
      exact Except.noConfusion h
    | some project =>
      simp only [hP] at h
      have hk := projKey_eq (List.find?_some hP)
      cases hI : project.tasks.findIdx? (taskKey taskId) with
      | none =>
        rw [hI] at h
        exact Except.noConfusion h
      | some i =>
        simp only [hI] at h
        cases hG : project.tasks.get? i with
        | none =>
          rw [hG] at h
          exact Except.noConfusion h
        | some oldTask =>
          simp only [hG] at h
          have hlt : i < project.tasks.length := (List.get?_eq_some.mp hG).choose
          rw [if_neg (completion_check_false u project.tasks i taskId projectId now
            oldTask hlt)] at h
          injection h with h2
          injection h2 with hA hB
          subst hA
          subst hB
          exact ⟨_, kvGetProject_set s userId projectId _ hk.1 hk.2, rfl⟩
  · intro s now userId projectId u s1 p1 ts hts h
    rw [updateProject] at h
    cases hP : kvGetProject s userId projectId with
    | none =>
      rw [hP] at h
      exact Except.noConfusion h
    | some existing =>
      simp only [hP, hts] at h
      injection h with h2
      injection h2 with hA hB
      subst hA
      subst hB
      constructor
      · simp [applyProjectUpdates, hts]
      · exact kvGetProject_set s userId projectId _ rfl rfl

/-- The C5 witness input: a wholesale replacement of the task array by
an empty one. -/
def emptyTasksPair : Store × Project :=
  ((updateProject storeDone 2500 ("u1") ("p9") { tasks := some [] }).toOption).getD
    ({}, projDone)

/-- C5 witness: the amended invariant at a concrete task-array
replacement. -/
theorem progress_invariant_amended_witness :
    emptyTasksPair.2.progress = calculateProgress emptyTasksPair.2.tasks ∧
    kvGetProject emptyTasksPair.1 ("u1") ("p9") = some emptyTasksPair.2 :=
  progress_invariant_amended.2.2.2 storeDone 2500 ("u1") ("p9") { tasks := some [] }
    emptyTasksPair.1 emptyTasksPair.2 [] rfl rfl

/-- A project with no tasks and progress 0. -/
def projEmpty : Project :=
  { id := "p0", userId := "u1", name := "Q", status := PStatus.active,
    priority := Priority.medium, progress := 0, tasks := [],
    created := 1000, updated := 1000 }

def storeEmpty : Store := { projects := [projEmpty] }

/-- The result of replacing the empty task array by one completed
task, without supplying `progress`. -/
def framePair : Store × Project :=
  ((updateProject storeEmpty 2000 ("u1") ("p0")
    { tasks := some [doneTask] }).toOption).getD ({}, projEmpty)

/-- C10 counterexample: an `updateProject` whose updates supply only a
task array changes the stored `progress` field (from 0 to 100) although
`progress` was not among the supplied fields — the frame "only the
updated timestamp and the explicitly supplied fields change" fails for
the recomputed progress. -/
theorem update_frame_refuted :
    updateProject storeEmpty 2000 ("u1") ("p0") { tasks := some [doneTask] } =
      Except.ok framePair ∧
    ({ tasks := some [doneTask] } : ProjectUpdates).progress = none ∧
    projEmpty.progress = 0 ∧
    framePair.2.progress = calculateProgress [doneTask] ∧
    calculateProgress [doneTask] = 100 :=
  ⟨rfl, rfl, rfl, rfl, calculateProgress_doneTask⟩

/-- C10 amended: `updateProject` keeps the stored project's `id` and
`userId` and `updateTask` keeps the task's `id` and `projectId` (the
latter equal to the lookup key, hence to its previous value on any
store whose embedded copies carry their project's id, as every write
maintains), even when the updates try to overwrite them; every field
not supplied keeps its previous value, except `updated` (always
restamped to the call time) and the project's `progress`, which is
recomputed whenever the updates supply a task array. -/
theorem update_identity_amended :
    (∀ (s : Store) (now : Nat) (userId projectId : String) (u : ProjectUpdates)
      (s1 : Store) (p1 : Project) (p0 : Project),
      kvGetProject s userId projectId = some p0 →
      updateProject s now userId projectId u = Except.ok (s1, p1) →
      p1.id = p0.id ∧ p1.userId = p0.userId ∧ p1.updated = now ∧
      (u.name = none → p1.name = p0.name) ∧
      (u.description = none → p1.description = p0.description) ∧
      (u.status = none → p1.status = p0.status) ∧
      (u.priority = none → p1.priority = p0.priority) ∧
      (u.progress = none → u.tasks = none → p1.progress = p0.progress) ∧
      (u.tasks = none → p1.tasks = p0.tasks) ∧
      (u.team = none → p1.team = p0.team) ∧
      (u.deadline = none → p1.deadline = p0.deadline) ∧
      (u.created = none → p1.created = p0.created) ∧
      (u.tags = none → p1.tags = p0.tags) ∧
      (u.metadata = none → p1.metadata = p0.metadata)) ∧
    (∀ (s : Store) (now : Nat) (userId projectId taskId : String) (u : TaskUpdates)
      (s1 : Store) (t1 : Task) (p0 : Project) (t0 : Task),
      kvGetProject s userId projectId = some p0 →
      p0.tasks.find? (taskKey taskId) = some t0 →
      t0.projectId = projectId →
      updateTask s now userId projectId taskId u = Except.ok (s1, t1) →
      t1.id = t0.id ∧ t1.projectId = t0.projectId ∧ t1.updated = now ∧
      (u.title = none → t1.title = t0.title) ∧
      (u.description = none → t1.description = t0.description) ∧
      (u.status = none → t1.status = t0.status) ∧
      (u.priority = none → t1.priority = t0.priority) ∧
      (u.assignee = none → t1.assignee = t0.assignee) ∧
      (u.due_date = none → t1.due_date = t0.due_date) ∧
      (u.created = none → t1.created = t0.created) ∧
      (u.estimatedHours = none → t1.estimatedHours = t0.estimatedHours) ∧
      (u.actualHours = none → t1.actualHours = t0.actualHours) ∧
      (u.dependencies = none → t1.dependencies = t0.dependencies) ∧
      (u.tags = none → t1.tags = t0.tags)) := by
  constructor
  · intro s now userId projectId u s1 p1 p0 hP h
    have hk := projKey_eq (List.find?_some hP)
    rw [updateProject] at h
    cases hts : u.tasks with
    | none =>
      simp only [hP, hts] at h
      injection h with h2
      injection h2 with hA hB
      subst hA
      subst hB
      refine ⟨by simp [applyProjectUpdates, hk.2], by simp [applyProjectUpdates, hk.1],
        rfl, ?_, ?_, ?_, ?_, ?_, ?_, ?_, ?_, ?_, ?_, ?_⟩
      · intro hf
        simp [applyProjectUpdates, hf]
      · intro hf
        simp [applyProjectUpdates, hf]
      · intro hf
        simp [applyProjectUpdates, hf]
      · intro hf
        simp [applyProjectUpdates, hf]
      · intro hf _
        simp [applyProjectUpdates, hf]
      · intro _
        simp [applyProjectUpdates, hts]
      · intro hf
        simp [applyProjectUpdates, hf]
      · intro hf
        simp [applyProjectUpdates, hf]
      · intro hf
        simp [applyProjectUpdates, hf]
      · intro hf
        simp [applyProjectUpdates, hf]
      · intro hf
        simp [applyProjectUpdates, hf]
    | some ts =>
      simp only [hP, hts] at h
      injection h with h2
      injection h2 with hA hB
      subst hA
      subst hB
      refine ⟨by simp [applyProjectUpdates, hk.2], by simp [applyProjectUpdates, hk.1],
        by simp [applyProjectUpdates], ?_, ?_, ?_, ?_, ?_, ?_, ?_, ?_, ?_, ?_, ?_⟩
      · intro hf
        simp [applyProjectUpdates, hf]
      · intro hf
        simp [applyProjectUpdates, hf]
      · intro hf
        simp [applyProjectUpdates, hf]
      · intro hf
        simp [applyProjectUpdates, hf]
      · intro _ htn
        exact Option.noConfusion htn
      · intro htn
        exact Option.noConfusion htn
      · intro hf
        simp [applyProjectUpdates, hf]
      · intro hf
        simp [applyProjectUpdates, hf]
      · intro hf
        simp [applyProjectUpdates, hf]
      · intro hf
        simp [applyProjectUpdates, hf]
      · intro hf
        simp [applyProjectUpdates, hf]
  · intro s now userId projectId taskId u s1 t1 p0 t0 hP hF hT0pid h
    rw [updateTask] at h
    simp only [hP] at h
    cases hI : p0.tasks.findIdx? (taskKey taskId) with
    | none =>
      rw [hI] at h
      exact Except.noConfusion h
    | some i =>
      simp only [hI] at h
      cases hG : p0.tasks.get? i with
      | none =>
        rw [hG] at h
        exact Except.noConfusion h
      | some oldTask =>
        simp only [hG] at h
        have hlt : i < p0.tasks.length := (List.get?_eq_some.mp hG).choose
        rw [if_neg (completion_check_false u p0.tasks i taskId projectId now
          oldTask hlt)] at h
        obtain ⟨hfind, hkey⟩ := find?_of_findIdx?_get? hI hG
        have ht0 : oldTask = t0 := Option.some.inj (hfind.symm.trans hF)
        subst ht0
        have hid := taskKey_eq hkey
        injection h with h2
        injection h2 with hA hB
        subst hA
        subst hB
        refine ⟨by simp [applyTaskUpdates, hid], by simp [applyTaskUpdates, hT0pid],
          rfl, ?_, ?_, ?_, ?_, ?_, ?_, ?_, ?_, ?_, ?_, ?_⟩
        all_goals intro hf
        all_goals simp [applyTaskUpdates, hf]

/-- The C10 witness input: an update supplying no field at all. -/
def idlePair : Store × Project :=
  ((updateProject storeEmpty 2200 ("u1") ("p0") {}).toOption).getD ({}, projEmpty)

/-- C10 witness: the amended identity frame at a concrete no-op
update. -/
theorem update_identity_amended_witness :
    idlePair.2.id = projEmpty.id ∧ idlePair.2.userId = projEmpty.userId ∧
    idlePair.2.progress = projEmpty.progress := by
  have h := update_identity_amended.1 storeEmpty 2200 ("u1") ("p0") ({} : ProjectUpdates)
    idlePair.1 idlePair.2 projEmpty rfl rfl
  exact ⟨h.1, h.2.1, h.2.2.2.2.2.2.2.1 rfl rfl⟩

end AIOS
